import Mathlib

/-!
Verification development for the Home Assistant ingress WSGI middleware
(`superset/rootfs/etc/superset/ha_wsgi.py`).

The middleware wraps an opaque WSGI backend.  Per request it reads the
`X-Ingress-Path` value, intercepts the backend's single `start_response`
call (classifying the response and fixing `Location` headers), and for
HTML/JavaScript responses under a non-empty ingress path it buffers the
body, transcodes compression, rewrites absolute URLs, and re-emits the
response with a recomputed `Content-Length`.

Bytes are modelled as `List Nat`, Python `str` as Lean `String`
(operating on the underlying `List Char`).  Operational logging
(`print(..., file=sys.stderr)`), the `environ["SCRIPT_NAME"]` mutation
(consumed only by the opaque backend), and `response.close()` are
effect-only and have no bearing on the emitted status/headers/body, so
they are not part of the model.
-/

namespace HaWsgi

/-- ASCII lower-casing of one character, as `str.lower` acts on the ASCII
header names and values this middleware inspects. -/
def lowerChar (c : Char) : Char :=
  if 'A' ≤ c ∧ c ≤ 'Z' then Char.ofNat (c.toNat + 32) else c

/-- Python `s.lower()` on ASCII text. -/
def pyLower (s : String) : String := ⟨s.data.map lowerChar⟩

/-- Decidable prefix test on lists; `listStarts p l` holds when `p` is a
prefix of `l`.  Backs Python `str.startswith`. -/
def listStarts {α : Type} [DecidableEq α] : List α → List α → Bool
  | [], _ => true
  | _ :: _, [] => false
  | a :: as, b :: bs => if a = b then listStarts as bs else false

/-- Python `s.startswith(pre)`. -/
def pyStartswith (s pre : String) : Bool := listStarts pre.data s.data

/-- Substring containment on lists: the needle is a prefix of some suffix
of the haystack.  Backs Python `in` on strings. -/
def containsList {α : Type} [DecidableEq α] (needle : List α) : List α → Bool
  | [] => listStarts needle []
  | a :: t => listStarts needle (a :: t) || containsList needle t

/-- Python `sub in s` for strings. -/
def pyContains (s sub : String) : Bool := containsList sub.data s.data

/-- Python `s.rstrip("/")`: drop every trailing slash. -/
def pyRstripSlash (s : String) : String :=
  ⟨(s.data.reverse.dropWhile (fun c => c == '/')).reverse⟩

/-- The single-quote character, `chr(39)`. -/
def sq : Char := Char.ofNat 39

/-- The double-quote character. -/
def dq : Char := '"'

/-- Core of `HAIngressMiddleware._rewrite_url` on character lists: prepend
the script name when the URL starts with `/`, does not already start with
the script name, and does not start with `//`. -/
def rwU (script_name url : List Char) : List Char :=
  if listStarts "/".data url && !listStarts script_name url
      && !listStarts "//".data url then
    script_name ++ url
  else url

/-- `HAIngressMiddleware._rewrite_url(self, url, script_name)`. -/
def rewrite_url (url script_name : String) : String :=
  ⟨rwU script_name.data url.data⟩

/-! ## Compression codecs

`_compress`/`_decompress` call the external `gzip`, `zlib` and
`zstandard` libraries, which are not part of this repository. -/

/-- Magic bytes of the gzip container. -/
def gzipMagic : List Nat := [31, 139]

/-- Magic bytes of a zlib-wrapped deflate stream. -/
def zlibMagic : List Nat := [120, 156]

/-- Magic bytes of a zstd frame. -/
def zstdMagic : List Nat := [40, 181, 47, 253]

/-- Modelled from the spec: `gzip.compress` is library code external to
the repository; section 4.5 describes it as a lossless one-shot container
codec, modelled as prepending the gzip magic to the payload. -/
def gzipCompress (b : List Nat) : List Nat := gzipMagic ++ b

/-- Modelled from the spec: `gzip.decompress`, inverse of `gzipCompress`;
raises (here: `none`) when the container magic is absent. -/
def gzipDecompress (d : List Nat) : Option (List Nat) :=
  if listStarts gzipMagic d then some (d.drop gzipMagic.length) else none

/-- Modelled from the spec: `zlib.compress`, a lossless one-shot codec
producing a zlib-wrapped deflate stream, modelled by its magic bytes. -/
def zlibCompress (b : List Nat) : List Nat := zlibMagic ++ b

/-- Modelled from the spec: `zlib.decompress` on a zlib-wrapped stream;
raises `zlib.error` (here: `none`) when the wrapper is absent. -/
def zlibDecompress (d : List Nat) : Option (List Nat) :=
  if listStarts zlibMagic d then some (d.drop zlibMagic.length) else none

/-- Modelled from the spec: raw-deflate decoding used as the fallback for
wrapper-less streams; the raw stream carries the payload itself. -/
def rawInflate (d : List Nat) : Option (List Nat) := some d

/-- Modelled from the spec: `zstandard` one-shot compression, a lossless
framed codec modelled by the zstd frame magic. -/
def zstdCompress (b : List Nat) : List Nat := zstdMagic ++ b

/-- Modelled from the spec: `zstandard` one-shot decompression; raises
(here: `none`) when the frame magic is absent. -/
def zstdDecompress (d : List Nat) : Option (List Nat) :=
  if listStarts zstdMagic d then some (d.drop zstdMagic.length) else none

/-- `HAIngressMiddleware._decompress(self, data, encoding)`: dispatch on
the encoding name; for deflate, try the zlib wrapper first and fall back
to raw deflate; unknown encodings pass the data through. `none` models a
raised exception. -/
def pyDecompress (data : List Nat) (encoding : String) : Option (List Nat) :=
  if encoding = "gzip" then gzipDecompress data
  else if encoding = "deflate" then
    match zlibDecompress data with
    | some r => some r
    | none => rawInflate data
  else if encoding = "zstd" then zstdDecompress data
  else some data

/-- `HAIngressMiddleware._compress(self, data, encoding)`: dispatch on the
encoding name; unknown encodings pass the data through. -/
def pyCompress (data : List Nat) (encoding : String) : List Nat :=
  if encoding = "gzip" then gzipCompress data
  else if encoding = "deflate" then zlibCompress data
  else if encoding = "zstd" then zstdCompress data
  else data

/-! ## Basic lemmas about the string helpers -/

theorem listStarts_append {α : Type} [DecidableEq α] (p u : List α) :
    listStarts p (p ++ u) = true := by
  induction p with
  | nil => rfl
  | cons a as ih => simpa [listStarts] using ih

theorem strData (s t : String) : (s ++ t).data = s.data ++ t.data := rfl

theorem pyStartswith_append (p u : String) : pyStartswith (p ++ u) p = true := by
  unfold pyStartswith
  rw [strData]
  exact listStarts_append p.data u.data

theorem drop_append_self {α : Type} (p u : List α) : (p ++ u).drop p.length = u := by
  induction p with
  | nil => rfl
  | cons a as ih => simp [ih]

/-! ## UTF-8 transcoding

`body.decode("utf-8")` / `text.encode("utf-8")` from the rewrite
pipeline; decoding is strict and `none` models a raised
`UnicodeDecodeError`. -/

/-- UTF-8 encoding of a single scalar value. -/
def utf8EncodeChar (c : Char) : List Nat :=
  let n := c.toNat
  if n < 128 then [n]
  else if n < 2048 then [192 + n / 64, 128 + n % 64]
  else if n < 65536 then [224 + n / 4096, 128 + (n / 64) % 64, 128 + n % 64]
  else [240 + n / 262144, 128 + (n / 4096) % 64, 128 + (n / 64) % 64, 128 + n % 64]

/-- Python `text.encode("utf-8")`. -/
def utf8Encode (s : String) : List Nat := (s.data.map utf8EncodeChar).flatten

/-- Continuation byte test for strict UTF-8 decoding. -/
def contByte (b : Nat) : Bool := 128 ≤ b && b ≤ 191

/-- Strict UTF-8 decoding to a character list: rejects stray continuation
bytes, truncated sequences, overlong forms, surrogates and values beyond
the Unicode range, as CPython's strict `decode("utf-8")` does. -/
def utf8DecodeAux : List Nat → Option (List Char)
  | [] => some []
  | b :: rest =>
    if b < 128 then
      (utf8DecodeAux rest).map (fun cs => Char.ofNat b :: cs)
    else if 194 ≤ b ∧ b ≤ 223 then
      match rest with
      | c1 :: r =>
        if contByte c1 then
          (utf8DecodeAux r).map (fun cs => Char.ofNat ((b - 192) * 64 + (c1 - 128)) :: cs)
        else none
      | [] => none
    else if 224 ≤ b ∧ b ≤ 239 then
      match rest with
      | c1 :: c2 :: r =>
        if (if b = 224 then 160 else 128) ≤ c1 ∧ c1 ≤ (if b = 237 then 159 else 191)
            ∧ contByte c2 = true then
          (utf8DecodeAux r).map
            (fun cs => Char.ofNat ((b - 224) * 4096 + (c1 - 128) * 64 + (c2 - 128)) :: cs)
        else none
      | _ => none
    else if 240 ≤ b ∧ b ≤ 244 then
      match rest with
      | c1 :: c2 :: c3 :: r =>
        if (if b = 240 then 144 else 128) ≤ c1 ∧ c1 ≤ (if b = 244 then 143 else 191)
            ∧ contByte c2 = true ∧ contByte c3 = true then
          (utf8DecodeAux r).map
            (fun cs =>
              Char.ofNat ((b - 240) * 262144 + (c1 - 128) * 4096 + (c2 - 128) * 64 + (c3 - 128)) :: cs)
        else none
      | _ => none
    else none

/-- Python `body.decode("utf-8")`. -/
def utf8Decode (l : List Nat) : Option String := (utf8DecodeAux l).map (fun cs => ⟨cs⟩)

example : utf8Decode [104, 105] = some "hi" := by decide
example : utf8Decode [255] = none := by decide
example : utf8Decode [31, 139, 104] = none := by decide
example : utf8Encode "hi" = [104, 105] := by decide

/-! ## Pattern substitution machinery

The rewrite rules of `_rewrite_html` are `re.sub` calls whose patterns
are concatenations of literal alternations (no alternative a prefix of
another), literal characters, greedy negated character classes, and
optionals whose failure cannot be rescued by backtracking — so each is
implemented as a deterministic scanner.  `subAll` mirrors `re.sub`
(leftmost, non-overlapping, scan resumes after each match); `subOnce`
mirrors `re.sub(..., count=1)`; every matcher consumes at least one
character, so fuel equal to the text length is never exhausted. -/

/-- Fuelled driver for global substitution. -/
def subAllF (m : List Char → Option (List Char × List Char)) :
    Nat → List Char → List Char
  | 0, l => l
  | _ + 1, [] => []
  | fuel + 1, c :: t =>
    match m (c :: t) with
    | some (rep, rest) => rep ++ subAllF m fuel rest
    | none => c :: subAllF m fuel t

/-- `re.sub(pattern, repl, text)`: replace every leftmost non-overlapping
match. -/
def subAll (m : List Char → Option (List Char × List Char)) (l : List Char) :
    List Char :=
  subAllF m l.length l

/-- `re.sub(pattern, repl, text, count=1)`: replace only the first
match. -/
def subOnce (m : List Char → Option (List Char × List Char)) :
    List Char → List Char
  | [] => []
  | c :: t =>
    match m (c :: t) with
    | some (rep, rest) => rep ++ rest
    | none => c :: subOnce m t

/-- Python `text.replace(old, new, 1)` for non-empty `old`. -/
def replaceFirst (old new : List Char) : List Char → List Char
  | [] => []
  | c :: t =>
    if listStarts old (c :: t) then new ++ (c :: t).drop old.length
    else c :: replaceFirst old new t

/-- Regex alternation over literal words tried left to right, as Python
does; returns the matched word and the rest. -/
def matchAlt (alts : List (List Char)) (l : List Char) :
    Option (List Char × List Char) :=
  match alts with
  | [] => none
  | a :: rest => if listStarts a l then some (a, l.drop a.length) else matchAlt rest l

/-- ASCII whitespace as matched by the regex class `\s` and used by
`str.strip()` / `str.split(None)`. -/
def isSpacePy (c : Char) : Bool :=
  c == ' ' || c == '\t' || c == '\n' || c == '\r' || c == '\x0b' || c == '\x0c'

/-- Python `s.split(",")` on character lists. -/
def splitOnChar (sep : Char) : List Char → List (List Char)
  | [] => [[]]
  | c :: t =>
    let r := splitOnChar sep t
    if c = sep then [] :: r
    else
      match r with
      | h :: t2 => (c :: h) :: t2
      | [] => [[c]]

/-- Python `s.strip()`. -/
def stripPy (l : List Char) : List Char :=
  ((l.dropWhile isSpacePy).reverse.dropWhile isSpacePy).reverse

/-- Python `s.split(None, 1)`: first whitespace-delimited token and the
remainder (with its leading whitespace removed), if any. -/
def splitNoneOnce (p : List Char) : List Char × Option (List Char) :=
  let p1 := p.dropWhile isSpacePy
  let t0 := p1.takeWhile (fun c => !(isSpacePy c))
  let r := (p1.dropWhile (fun c => !(isSpacePy c))).dropWhile isSpacePy
  (t0, if r.isEmpty then none else some r)

/-- Case-insensitive literal match (regex `re.IGNORECASE`), returning the
actually-matched characters (case preserved) and the rest. -/
def ciStarts : List Char → List Char → Option (List Char × List Char)
  | [], l => some ([], l)
  | _ :: _, [] => none
  | p :: ps, c :: cs =>
    if lowerChar c = lowerChar p then
      match ciStarts ps cs with
      | some (m, r) => some (c :: m, r)
      | none => none
    else none

/-! ## The rewrite rules of `_rewrite_html` -/

/-- Attribute names of the `href|src|action|data-src|poster` alternation. -/
def attrWords : List (List Char) :=
  ["href".data, "src".data, "action".data, "data-src".data, "poster".data]

/-- Matcher for `(href|src|action|data-src|poster)=q(/[^q]*)q` with quote
character `q`; the replacement rewrites the URL group via
`_rewrite_url`. -/
def matchAttrQ (q : Char) (sn : List Char) (l : List Char) :
    Option (List Char × List Char) :=
  match matchAlt attrWords l with
  | none => none
  | some (a, r1) =>
    match r1 with
    | e :: qc :: s :: r2 =>
      if e = '=' ∧ qc = q ∧ s = '/' then
        let sp := r2.span (fun c => !(c == q))
        match sp.2 with
        | c3 :: r4 =>
          if c3 = q then
            some (a ++ [('=' : Char), q] ++ rwU sn ('/' :: sp.1) ++ [q], r4)
          else none
        | [] => none
      else none
    | _ => none

/-- Matcher for the CSS rule `url(['"]?(/[^)'"]+)['"]?\)`; the
replacement is always `url("...")` with double quotes. -/
def matchCssUrl (sn : List Char) (l : List Char) :
    Option (List Char × List Char) :=
  match l with
  | 'u' :: 'r' :: 'l' :: '(' :: r1 =>
    let r2 :=
      match r1 with
      | c :: t => if c = dq ∨ c = sq then t else r1
      | [] => r1
    match r2 with
    | '/' :: r3 =>
      let sp := r3.span (fun c => !(c == ')' || c == dq || c == sq))
      if sp.1.isEmpty then none
      else
        let r5 :=
          match sp.2 with
          | c :: t => if c = dq ∨ c = sq then t else sp.2
          | [] => sp.2
        match r5 with
        | ')' :: r6 =>
          some ("url(".data ++ [dq] ++ rwU sn ('/' :: sp.1) ++ [dq, ')'], r6)
        | _ => none
    | _ => none
  | _ => none

/-- Rewrite the comma-separated value of a `srcset` attribute: each part
is stripped, and a part that starts with `/` but not with the script name
has its URL token rewritten while its descriptor is kept. -/
def srcsetRewrite (sn : List Char) (l : List Char) : List Char :=
  let parts := (splitOnChar ',' l).map (fun part =>
    let p := stripPy part
    if listStarts "/".data p && !listStarts sn p then
      match splitNoneOnce p with
      | (t0, none) => rwU sn t0
      | (t0, some r) => rwU sn t0 ++ ' ' :: r
    else p)
  List.intercalate ", ".data parts

/-- Matcher for `(srcset)="([^"]*)"`. -/
def matchSrcset (sn : List Char) (l : List Char) :
    Option (List Char × List Char) :=
  if listStarts "srcset=\"".data l then
    let sp := (l.drop 8).span (fun c => !(c == dq))
    match sp.2 with
    | c :: r2 =>
      if c = dq then
        some ("srcset=".data ++ [dq] ++ srcsetRewrite sn sp.1 ++ [dq], r2)
      else none
    | [] => none
  else none

/-- Matcher for the meta-refresh rule
`(content="\d+;\s*url=)(/[^"]*)"` with `re.IGNORECASE`; the matched
prelude is reproduced verbatim as group 1. -/
def matchMeta (sn : List Char) (l : List Char) :
    Option (List Char × List Char) :=
  match ciStarts "content=\"".data l with
  | none => none
  | some (m1, r1) =>
    let dsp := r1.span Char.isDigit
    if dsp.1.isEmpty then none
    else
      match dsp.2 with
      | ';' :: r2 =>
        let wsp := r2.span isSpacePy
        match ciStarts "url=".data wsp.2 with
        | none => none
        | some (m2, r3) =>
          match r3 with
          | '/' :: r4 =>
            let sp := r4.span (fun c => !(c == dq))
            match sp.2 with
            | c :: r5 =>
              if c = dq then
                some (m1 ++ dsp.1 ++ ';' :: wsp.1 ++ m2 ++ rwU sn ('/' :: sp.1) ++ [dq], r5)
              else none
            | [] => none
          | _ => none
      | _ => none

/-- Matcher for quoted script string literals
`q(/(?:word alternation)(?:/[^q]*)?)q` with quote `q`. -/
def matchJsQ (q : Char) (words : List (List Char)) (sn : List Char)
    (l : List Char) : Option (List Char × List Char) :=
  match l with
  | c0 :: '/' :: r1 =>
    if c0 = q then
      match matchAlt words r1 with
      | none => none
      | some (w, r2) =>
        match r2 with
        | '/' :: r3 =>
          let sp := r3.span (fun c => !(c == q))
          match sp.2 with
          | c :: r4 =>
            if c = q then
              some (q :: rwU sn ('/' :: w ++ '/' :: sp.1) ++ [q], r4)
            else none
          | [] => none
        | c :: r3 =>
          if c = q then some (q :: rwU sn ('/' :: w) ++ [q], r3) else none
        | [] => none
    else none
  | _ => none

/-- Key names of the JSON-field rule's alternation. -/
def jsonKeys : List (List Char) :=
  ["url".data, "path".data, "href".data, "src".data, "redirect".data,
   "next".data, "location".data]

/-- Matcher for
`"(url|path|href|src|redirect|next|location)":\s*"(/(?:words)(?:/[^"]*)?)"`;
the replacement drops the optional whitespace after the colon. -/
def matchJsonField (words : List (List Char)) (sn : List Char)
    (l : List Char) : Option (List Char × List Char) :=
  match l with
  | c0 :: r0 =>
    if c0 = dq then
      match matchAlt jsonKeys r0 with
      | none => none
      | some (k, r1) =>
        match r1 with
        | c1 :: c2 :: r2 =>
          if c1 = dq ∧ c2 = ':' then
            let wsp := r2.span isSpacePy
            match wsp.2 with
            | c3 :: '/' :: r3 =>
              if c3 = dq then
                match matchAlt words r3 with
                | none => none
                | some (w, r4) =>
                  match r4 with
                  | '/' :: r5 =>
                    let sp := r5.span (fun c => !(c == dq))
                    match sp.2 with
                    | c :: r6 =>
                      if c = dq then
                        some (dq :: k ++ [dq, ':', dq]
                          ++ rwU sn ('/' :: w ++ '/' :: sp.1) ++ [dq], r6)
                      else none
                    | [] => none
                  | c :: r5 =>
                    if c = dq then
                      some (dq :: k ++ [dq, ':', dq] ++ rwU sn ('/' :: w) ++ [dq], r5)
                    else none
                  | [] => none
              else none
            | _ => none
          else none
        | _ => none
    else none
  | [] => none

/-! ## `_rewrite_html` and the JavaScript body rewrite -/

/-- The `<base href="{script_name}/">` element text. -/
def base_tagOf (script_name : String) : String :=
  "<base href=\"" ++ script_name ++ "/\">"

/-- Matcher for the fallback regex `(<head[^>]*>)`, whose replacement
appends the base tag after the matched opening tag. -/
def matchHeadTag (bt : List Char) (l : List Char) :
    Option (List Char × List Char) :=
  if listStarts "<head".data l then
    let sp := (l.drop 5).span (fun c => !(c == '>'))
    match sp.2 with
    | c :: r2 =>
      if c = '>' then some ("<head".data ++ sp.1 ++ '>' :: bt, r2) else none
    | [] => none
  else none

/-- Base-tag injection of `_rewrite_html` (its first stage): inject after
a plain `<head>` unless the base tag is already present; otherwise, if a
`<head ` with attributes occurs, inject after the first such tag via the
fallback regex. -/
def injectBase (script_name : String) (t : List Char) : List Char :=
  let bt := (base_tagOf script_name).data
  if containsList "<head>".data t && !containsList bt t then
    replaceFirst "<head>".data ("<head>".data ++ bt) t
  else if containsList "<head ".data t then
    subOnce (matchHeadTag bt) t
  else t

/-- String-level wrapper of `injectBase`. -/
def injectBaseS (script_name text : String) : String :=
  ⟨injectBase script_name text.data⟩

/-- The client-side patch snippet injected right after the base tag. -/
def fetch_patchOf (script_name : String) : String :=
  "<script>\n(function() \x7b\n  var INGRESS_PATH = \"" ++ script_name ++ "\";\n\n"
  ++ "  // Patch fetch to prepend ingress path to absolute URLs\n"
  ++ "  var originalFetch = window.fetch;\n"
  ++ "  window.fetch = function(url, options) \x7b\n"
  ++ "    if (typeof url === \x27string\x27 && url.startsWith(\x27/\x27) && !url.startsWith(INGRESS_PATH) && !url.startsWith(\x27//\x27)) \x7b\n"
  ++ "      url = INGRESS_PATH + url;\n"
  ++ "    \x7d\n"
  ++ "    return originalFetch.call(this, url, options);\n"
  ++ "  \x7d;\n\n"
  ++ "  // Patch XMLHttpRequest.open for older AJAX calls\n"
  ++ "  var originalXHROpen = XMLHttpRequest.prototype.open;\n"
  ++ "  XMLHttpRequest.prototype.open = function(method, url) \x7b\n"
  ++ "    if (typeof url === \x27string\x27 && url.startsWith(\x27/\x27) && !url.startsWith(INGRESS_PATH) && !url.startsWith(\x27//\x27)) \x7b\n"
  ++ "      arguments[1] = INGRESS_PATH + url;\n"
  ++ "    \x7d\n"
  ++ "    return originalXHROpen.apply(this, arguments);\n"
  ++ "  \x7d;\n\n"
  ++ "  // Also patch Image src for dynamically created images\n"
  ++ "  var originalImage = window.Image;\n"
  ++ "  window.Image = function(width, height) \x7b\n"
  ++ "    var img = new originalImage(width, height);\n"
  ++ "    var originalSrcDescriptor = Object.getOwnPropertyDescriptor(HTMLImageElement.prototype, \x27src\x27);\n"
  ++ "    Object.defineProperty(img, \x27src\x27, \x7b\n"
  ++ "      set: function(url) \x7b\n"
  ++ "        if (typeof url === \x27string\x27 && url.startsWith(\x27/\x27) && !url.startsWith(INGRESS_PATH) && !url.startsWith(\x27//\x27)) \x7b\n"
  ++ "          url = INGRESS_PATH + url;\n"
  ++ "        \x7d\n"
  ++ "        originalSrcDescriptor.set.call(this, url);\n"
  ++ "      \x7d,\n"
  ++ "      get: function() \x7b\n"
  ++ "        return originalSrcDescriptor.get.call(this);\n"
  ++ "      \x7d\n"
  ++ "    \x7d);\n"
  ++ "    return img;\n"
  ++ "  \x7d;\n\n"
  ++ "  console.log(\x27[HA-Ingress] URL patching enabled for path:\x27, INGRESS_PATH);\n"
  ++ "\x7d)();\n</script>"

/-- Allow-listed path words of the in-HTML script rewriting rules, in
source order. -/
def jsWordsHtml : List (List Char) :=
  ["static".data, "api".data, "superset".data, "login".data, "logout".data,
   "dashboard".data, "chart".data, "explore".data, "sqllab".data,
   "tablemodelview".data, "databaseview".data, "savedqueryview".data,
   "favicon".data, "assets".data, "users".data, "roles".data,
   "csstemplatemodelview".data, "annotationlayermodelview".data,
   "welcome".data]

/-- Allow-listed path words used for standalone JavaScript bodies. -/
def jsWordsScript : List (List Char) :=
  ["static".data, "api".data, "superset".data, "login".data, "logout".data,
   "dashboard".data, "chart".data, "explore".data, "sqllab".data,
   "assets".data, "welcome".data]

/-- `HAIngressMiddleware._rewrite_html(self, text, script_name)`: base-tag
injection, patch-script injection, then the ordered `re.sub` rules. -/
def rewrite_html (text script_name : String) : String :=
  let sn := script_name.data
  let bt := (base_tagOf script_name).data
  let t1 := injectBase script_name text.data
  let t2 :=
    if containsList bt t1 then
      replaceFirst bt (bt ++ (fetch_patchOf script_name).data) t1
    else t1
  let t3 := subAll (matchAttrQ dq sn) t2
  let t4 := subAll (matchAttrQ sq sn) t3
  let t5 := subAll (matchCssUrl sn) t4
  let t6 := subAll (matchSrcset sn) t5
  let t7 := subAll (matchMeta sn) t6
  let t8 := subAll (matchJsQ dq jsWordsHtml sn) t7
  let t9 := subAll (matchJsQ sq jsWordsHtml sn) t8
  ⟨subAll (matchJsonField jsWordsHtml sn) t9⟩

/-- The JavaScript-body rewrite inlined in `__call__` for responses of
SCRIPT kind: the two quoted-literal rules over the shorter allow-list. -/
def rewriteJsBody (text script_name : String) : String :=
  let sn := script_name.data
  ⟨subAll (matchJsQ sq jsWordsScript sn) (subAll (matchJsQ dq jsWordsScript sn) text.data)⟩

example : rewrite_html "hi" "/gw1" = "hi" := by decide
example :
    rewrite_html "<img src=\"/static/x.png\">" "/hassio_ingress/abc123"
      = "<img src=\"/hassio_ingress/abc123/static/x.png\">" := by decide
example :
    rewrite_html "<p srcset=\"/img/a.png 1x, /img/b.png 2x\">" "/gw1"
      = "<p srcset=\"/gw1/img/a.png 1x, /gw1/img/b.png 2x\">" := by decide
example :
    rewriteJsBody "fetch(\x27/api/v1/chart\x27)" "/gw1"
      = "fetch(\x27/gw1/api/v1/chart\x27)" := by decide

/-! ## The per-request pipeline of `HAIngressMiddleware.__call__` -/

/-- The backend's single WSGI emission: the status and header list it
passes to `start_response`, and its finite sequence of body byte
chunks. -/
structure App where
  status : String
  headers : List (String × String)
  chunks : List (List Nat)
deriving DecidableEq

/-- The mutable closure state accumulated by `capturing_start_response`:
the `is_html` / `is_javascript` flags, the captured `content_encoding`
(`none` until a `Content-Encoding` header is seen), and the `new_headers`
list built so far. -/
structure CapSt where
  isHtml : Bool
  isJs : Bool
  enc : Option String
  out : List (String × String)
deriving DecidableEq

/-- One iteration of the header loop in `capturing_start_response`:
update the content kind flags and the captured encoding, fix a redirect
`Location` value, skip a `Content-Length` header once rewritable content
has been recognized under an ingress path, and otherwise append the
header. -/
def processHeader (ingress_path script_name : String) (st : CapSt)
    (h : String × String) : CapSt :=
  let name := h.1
  let value := h.2
  let lname := pyLower name
  let st1 :=
    if lname = "content-type" then
      if pyContains (pyLower value) "text/html" = true then { st with isHtml := true }
      else if pyContains (pyLower value) "javascript" = true then { st with isJs := true }
      else st
    else st
  let st2 := if lname = "content-encoding" then { st1 with enc := some (pyLower value) } else st1
  let v2 :=
    if ingress_path ≠ "" ∧ lname = "location" ∧ pyStartswith value "/" = true
        ∧ pyStartswith value script_name = false then
      script_name ++ value
    else value
  if (st2.isHtml || st2.isJs) = true ∧ ingress_path ≠ "" ∧ lname = "content-length" then st2
  else { st2 with out := st2.out ++ [(name, v2)] }

/-- The whole header loop of `capturing_start_response` from the initial
closure state. -/
def captureHeaders (ingress_path script_name : String)
    (hs : List (String × String)) : CapSt :=
  hs.foldl (processHeader ingress_path script_name) ⟨false, false, none, []⟩

/-- The `script_name` computed in `__call__`: empty when the ingress path
is empty, otherwise the ingress path with trailing slashes stripped. -/
def scriptNameOf (ingress_path : String) : String :=
  if ingress_path ≠ "" then pyRstripSlash ingress_path else ""

/-- The membership test `content_encoding in ("gzip", "deflate", "zstd")`. -/
def encIsCompressed (enc : Option String) : Bool :=
  match enc with
  | some e => e == "gzip" || e == "deflate" || e == "zstd"
  | none => false

/-- The conditional decompression step of the rewrite pipeline: on a
recognized compression encoding, try to decompress (possibly raising,
i.e. `none`); otherwise leave the collected bytes as they are. -/
def decompStage (enc : Option String) (b0 : List Nat) : Option (List Nat) :=
  if encIsCompressed enc then pyDecompress b0 (enc.getD "") else some b0

/-- The `try` block of `__call__` acting on the collected body: the
`body` variable is reassigned at each stage, and any raise is caught, so
the emitted body is the value the variable held when the error occurred —
the collected bytes if decompression failed, the decompressed bytes if
UTF-8 decoding failed, and otherwise the rewritten, re-encoded and
recompressed text. -/
def bodyPipeline (isHtml : Bool) (enc : Option String) (script_name : String)
    (b0 : List Nat) : List Nat :=
  match decompStage enc b0 with
  | none => b0
  | some b1 =>
    match utf8Decode b1 with
    | none => b1
    | some t =>
      let t2 := if isHtml then rewrite_html t script_name else rewriteJsBody t script_name
      let b2 := utf8Encode t2
      if encIsCompressed enc then pyCompress b2 (enc.getD "") else b2

/-- `HAIngressMiddleware.__call__` as a function from the ingress path
and the backend's emission to the response emitted to the client.  For
rewritable content under a non-empty ingress path the headers are
deferred, the body is collected, transformed by `bodyPipeline`, and
re-emitted as one buffer with an appended recomputed `Content-Length`;
otherwise status, captured headers and body chunks pass through. -/
def runMiddleware (ingress_path : String) (app : App) : App :=
  let script_name := scriptNameOf ingress_path
  let c := captureHeaders ingress_path script_name app.headers
  if (c.isHtml || c.isJs) = true ∧ ingress_path ≠ "" then
    let b0 := app.chunks.flatten
    let body := bodyPipeline c.isHtml c.enc script_name b0
    { status := app.status,
      headers := c.out ++ [("Content-Length", toString body.length)],
      chunks := [body] }
  else
    { status := app.status, headers := c.out, chunks := app.chunks }

/-- Response content kinds as classified from the two closure flags:
`is_html` takes precedence in the body-rewrite branch. -/
inductive ContentKind where
  | HTML
  | SCRIPT
  | OTHER
deriving DecidableEq

/-- The content kind effectively acted on by `__call__`. -/
def contentKindOf (c : CapSt) : ContentKind :=
  if c.isHtml then ContentKind.HTML
  else if c.isJs then ContentKind.SCRIPT
  else ContentKind.OTHER

/-! ## Claim C5: the rewrite predicate and its idempotence -/

/-- C5: `_rewrite_url` prefixes a URL exactly when it starts with `/`,
does not already start with the script name, and does not start with
`//`; and rewriting an already-prefixed URL `p ++ u` is a no-op, so the
rewrite never double-prefixes. -/
theorem claim5_rewrite_url_predicate_and_idempotence (u p : String) :
    (pyStartswith u "/" = true ∧ pyStartswith u p = false ∧ pyStartswith u "//" = false →
      rewrite_url u p = p ++ u)
    ∧ (¬ (pyStartswith u "/" = true ∧ pyStartswith u p = false ∧ pyStartswith u "//" = false) →
      rewrite_url u p = u)
    ∧ rewrite_url (p ++ u) p = p ++ u := by
  refine ⟨?_, ?_, ?_⟩
  · rintro ⟨h1, h2, h3⟩
    unfold pyStartswith at h1 h2 h3
    unfold rewrite_url rwU
    rw [h1, h2, h3]
    rfl
  · intro hno
    unfold rewrite_url rwU
    by_cases hb : (listStarts "/".data u.data && !listStarts p.data u.data
        && !listStarts "//".data u.data) = true
    · exfalso
      apply hno
      have hb1 := hb
      simp only [Bool.and_eq_true, Bool.not_eq_true'] at hb1
      exact ⟨hb1.1.1, hb1.1.2, hb1.2⟩
    · rw [if_neg (by simpa using hb)]
  · unfold rewrite_url rwU
    have hb : listStarts p.data (p ++ u).data = true := by
      rw [strData]
      exact listStarts_append p.data u.data
    rw [hb]
    simp
    rw [← strData]

/-- Witness for C5 at the prefix `/gw1` and the URL `/login`. -/
theorem claim5_witness :
    rewrite_url "/login" "/gw1" = "/gw1/login"
    ∧ rewrite_url ("/gw1" ++ "/login") "/gw1" = "/gw1" ++ "/login" := by
  constructor
  · have h := (claim5_rewrite_url_predicate_and_idempotence "/login" "/gw1").1
      (by decide)
    exact h.trans (by decide)
  · exact (claim5_rewrite_url_predicate_and_idempotence "/login" "/gw1").2.2

/-! ## Claim C3: protocol-relative URLs -/

/-- C3, counterexample: at the `Location` rewrite site the `//` exclusion
is absent, so with ingress path `/gw1` a backend `Location: //evil.com/x`
is emitted as `/gw1//evil.com/x`, not forwarded unchanged as the claim
states. -/
theorem claim3_counterexample :
    (runMiddleware "/gw1"
        { status := "302 FOUND", headers := [("Location", "//evil.com/x")],
          chunks := [] }).headers
      = [("Location", "/gw1//evil.com/x")]
    ∧ ("/gw1//evil.com/x" : String) ≠ "//evil.com/x" := by
  decide

/-- C3, amended: every rewrite site that goes through `_rewrite_url`
(markup attributes, CSS `url()`, srcset URL tokens, meta refresh, script
literals, JSON fields) never prefixes a URL beginning with `//`; the
`Location` header rewrite, however, applies no such exclusion. -/
theorem claim3_amended (u p : String) (h : pyStartswith u "//" = true) :
    rewrite_url u p = u := by
  unfold pyStartswith at h
  unfold rewrite_url rwU
  rw [h]
  simp

/-- Witness for the amended C3 at `//evil.com/x` and prefix `/gw1`. -/
theorem claim3_amended_witness : rewrite_url "//evil.com/x" "/gw1" = "//evil.com/x" :=
  claim3_amended "//evil.com/x" "/gw1" (by decide)

/-! ## Claim C8: compression round-trip -/

/-- C8: for every encoding name (the three recognized codecs, and
identity behaviour for anything else) decompressing a compressed body
returns the body: `_decompress(_compress(b, e), e) == b` without
raising. -/
theorem claim8_compression_round_trip (e : String) (b : List Nat) :
    pyDecompress (pyCompress b e) e = some b := by
  by_cases hg : e = "gzip"
  · subst hg
    simp [pyCompress, pyDecompress, gzipCompress, gzipDecompress,
      listStarts_append, drop_append_self]
  · by_cases hd : e = "deflate"
    · subst hd
      simp [pyCompress, pyDecompress, zlibCompress, zlibDecompress,
        listStarts_append, drop_append_self]
    · by_cases hz : e = "zstd"
      · subst hz
        simp [pyCompress, pyDecompress, zstdCompress, zstdDecompress,
          listStarts_append, drop_append_self]
      · simp [pyCompress, pyDecompress, hg, hd, hz]

/-! ## Claim C4: Content-Length handling -/

/-- C4: the `Content-Length` skip consults the `is_html` flag as
accumulated so far, so a `Content-Length` header emitted before the
classifying `Content-Type` header is kept, and the final header list
carries both the stale value `100` and the freshly computed value `2` —
contradicting the claimed (and intended, per the source comment
"Skip Content-Length for rewritable content") drop of every
`Content-Length` header. -/
theorem claim4_stale_content_length_kept :
    (runMiddleware "/gw1"
        { status := "200 OK",
          headers := [("Content-Length", "100"), ("Content-Type", "text/html")],
          chunks := [[104, 105]] }).headers
      = [("Content-Length", "100"), ("Content-Type", "text/html"),
         ("Content-Length", "2")] := by
  decide

/-! ## Claim C1: pass-through when the ingress path is empty -/

theorem processHeader_empty_out (sn : String) (st : CapSt) (h : String × String) :
    (processHeader "" sn st h).out = st.out ++ [h] := by
  unfold processHeader
  simp [apply_ite CapSt.out]

theorem foldl_empty_out (sn : String) (hs : List (String × String)) :
    ∀ st : CapSt, (hs.foldl (processHeader "" sn) st).out = st.out ++ hs := by
  induction hs with
  | nil => intro st; simp
  | cons h t ih =>
    intro st
    simp only [List.foldl_cons]
    rw [ih (processHeader "" sn st h), processHeader_empty_out]
    simp

/-- C1: with an absent or empty `X-Ingress-Path` the middleware is a pure
pass-through — the emitted status, headers and body chunks are exactly
the backend's, with no header added, removed or altered. -/
theorem claim1_empty_ingress_pass_through (app : App) :
    runMiddleware "" app = app := by
  unfold runMiddleware
  have hout : (captureHeaders "" (scriptNameOf "") app.headers).out = app.headers := by
    unfold captureHeaders
    simpa using foldl_empty_out (scriptNameOf "") app.headers ⟨false, false, none, []⟩
  rw [if_neg (by simp)]
  cases app with
  | mk s hs ch => simpa using hout

/-! ## Claim C7: response classification -/

/-- Header test matching the amended claim's HTML side: a `Content-Type`
header whose value contains `text/html` case-insensitively. -/
def ctHtmlHeader (h : String × String) : Bool :=
  pyLower h.1 == "content-type" && pyContains (pyLower h.2) "text/html"

/-- Header test matching the amended claim's SCRIPT side: a
`Content-Type` header whose value contains `javascript` but, because of
the `elif`, not `text/html` (case-insensitively). -/
def ctScriptHeader (h : String × String) : Bool :=
  pyLower h.1 == "content-type" && !pyContains (pyLower h.2) "text/html"
    && pyContains (pyLower h.2) "javascript"

theorem processHeader_isHtml (ip sn : String) (st : CapSt) (h : String × String) :
    (processHeader ip sn st h).isHtml = (st.isHtml || ctHtmlHeader h) := by
  unfold processHeader ctHtmlHeader
  by_cases hct : pyLower h.1 = "content-type"
  · by_cases hh : pyContains (pyLower h.2) "text/html" = true
    · simp [hct, hh, apply_ite CapSt.isHtml]
    · simp at hh
      simp [hct, hh, apply_ite CapSt.isHtml]
  · simp [hct, apply_ite CapSt.isHtml]

theorem processHeader_isJs (ip sn : String) (st : CapSt) (h : String × String) :
    (processHeader ip sn st h).isJs = (st.isJs || ctScriptHeader h) := by
  unfold processHeader ctScriptHeader
  by_cases hct : pyLower h.1 = "content-type"
  · by_cases hh : pyContains (pyLower h.2) "text/html" = true
    · simp [hct, hh, apply_ite CapSt.isJs]
    · simp at hh
      by_cases hj : pyContains (pyLower h.2) "javascript" = true
      · simp [hct, hh, hj, apply_ite CapSt.isJs]
      · simp at hj
        simp [hct, hh, hj, apply_ite CapSt.isJs]
  · simp [hct, apply_ite CapSt.isJs]

theorem foldl_isHtml (ip sn : String) (hs : List (String × String)) :
    ∀ st : CapSt,
    (hs.foldl (processHeader ip sn) st).isHtml = (st.isHtml || hs.any ctHtmlHeader) := by
  induction hs with
  | nil => intro st; simp
  | cons h t ih =>
    intro st
    simp only [List.foldl_cons, List.any_cons]
    rw [ih (processHeader ip sn st h), processHeader_isHtml]
    simp [Bool.or_assoc]

theorem foldl_isJs (ip sn : String) (hs : List (String × String)) :
    ∀ st : CapSt,
    (hs.foldl (processHeader ip sn) st).isJs = (st.isJs || hs.any ctScriptHeader) := by
  induction hs with
  | nil => intro st; simp
  | cons h t ih =>
    intro st
    simp only [List.foldl_cons, List.any_cons]
    rw [ih (processHeader ip sn st h), processHeader_isJs]
    simp [Bool.or_assoc]

/-- C7, counterexample: a single `Content-Type` header whose value
contains both `text/html` and `javascript` yields content kind HTML, not
SCRIPT, because the `elif` never runs once `text/html` matched — so
"SCRIPT iff some Content-Type value contains `javascript`" is false. -/
theorem claim7_counterexample :
    contentKindOf (captureHeaders "/gw1" "/gw1"
        [("Content-Type", "text/html javascript")]) = ContentKind.HTML
    ∧ contentKindOf (captureHeaders "/gw1" "/gw1"
        [("Content-Type", "text/html javascript")]) ≠ ContentKind.SCRIPT
    ∧ pyContains (pyLower "text/html javascript") "javascript" = true := by
  decide

/-- C7, amended: the HTML flag is set iff some `Content-Type` header
value contains `text/html` case-insensitively; the JavaScript flag is set
iff some `Content-Type` header value contains `javascript` and, because
of the per-header `elif`, does not also contain `text/html`. -/
theorem claim7_amended_classification (ip sn : String) (hs : List (String × String)) :
    (captureHeaders ip sn hs).isHtml = hs.any ctHtmlHeader
    ∧ (captureHeaders ip sn hs).isJs = hs.any ctScriptHeader := by
  unfold captureHeaders
  constructor
  · simpa using foldl_isHtml ip sn hs ⟨false, false, none, []⟩
  · simpa using foldl_isJs ip sn hs ⟨false, false, none, []⟩

/-! ## Claim C10: frame property of the deferred emission -/

/-- Headers whose lower-cased name is neither `content-length` nor
`location` — the ones the middleware never touches. -/
def keepOther (h : String × String) : Bool :=
  !(pyLower h.1 == "content-length" || pyLower h.1 == "location")

theorem processHeader_out_filter (ip sn : String) (st : CapSt) (h : String × String) :
    ((processHeader ip sn st h).out).filter keepOther
      = st.out.filter keepOther ++ List.filter keepOther [h] := by
  unfold processHeader
  by_cases hcl : pyLower h.1 = "content-length"
  · simp [hcl, keepOther, apply_ite CapSt.out, apply_ite (List.filter keepOther),
      List.filter_append]
  · by_cases hloc : pyLower h.1 = "location"
    · simp [hcl, hloc, keepOther, apply_ite CapSt.out, List.filter_append]
    · simp [hcl, hloc, keepOther, apply_ite CapSt.out, List.filter_append]

theorem foldl_out_filter (ip sn : String) (hs : List (String × String)) :
    ∀ st : CapSt,
    ((hs.foldl (processHeader ip sn) st).out).filter keepOther
      = st.out.filter keepOther ++ hs.filter keepOther := by
  induction hs with
  | nil => intro st; simp
  | cons h t ih =>
    intro st
    simp only [List.foldl_cons]
    rw [ih (processHeader ip sn st h), processHeader_out_filter]
    cases hk : keepOther h <;> simp [List.filter_cons, hk]

/-- C10: on the body-rewrite path the emitted status is exactly the
backend's, and every header whose lower-cased name is neither
`content-length` nor `location` is forwarded with name and value
unchanged and in its original relative order. -/
theorem claim10_untouched_headers_and_status (ip : String) (app : App)
    (hip : ip ≠ "")
    (hflags : ((captureHeaders ip (scriptNameOf ip) app.headers).isHtml
        || (captureHeaders ip (scriptNameOf ip) app.headers).isJs) = true) :
    (runMiddleware ip app).status = app.status
    ∧ (runMiddleware ip app).headers.filter keepOther
        = app.headers.filter keepOther := by
  simp only [runMiddleware]
  rw [if_pos ⟨hflags, hip⟩]
  refine ⟨rfl, ?_⟩
  simp only [List.filter_append]
  have h1 : (captureHeaders ip (scriptNameOf ip) app.headers).out.filter keepOther
      = app.headers.filter keepOther := by
    unfold captureHeaders
    simpa using foldl_out_filter ip (scriptNameOf ip) app.headers ⟨false, false, none, []⟩
  rw [h1]
  have hklen : ∀ v : String, keepOther ("Content-Length", v) = false := by
    intro v
    unfold keepOther
    have h3 : pyLower "Content-Length" = "content-length" := by decide
    simp [h3]
  simp [List.filter_cons, hklen]

/-- Witness for C10 on a concrete HTML response carrying an untouched
custom header. -/
theorem claim10_witness :
    (runMiddleware "/gw1"
        { status := "200 OK",
          headers := [("X-Custom", "1"), ("Content-Type", "text/html"),
            ("Content-Length", "5")],
          chunks := [[104]] }).status = "200 OK"
    ∧ (runMiddleware "/gw1"
        { status := "200 OK",
          headers := [("X-Custom", "1"), ("Content-Type", "text/html"),
            ("Content-Length", "5")],
          chunks := [[104]] }).headers.filter keepOther
      = List.filter keepOther
          [("X-Custom", "1"), ("Content-Type", "text/html"), ("Content-Length", "5")] := by
  have h := claim10_untouched_headers_and_status "/gw1"
    { status := "200 OK",
      headers := [("X-Custom", "1"), ("Content-Type", "text/html"),
        ("Content-Length", "5")],
      chunks := [[104]] } (by decide) (by decide)
  exact ⟨h.1, h.2⟩

/-! ## Claim C6: Location rewriting -/

theorem processHeader_out_mono (ip sn : String) (st : CapSt) (h : String × String)
    (x : String × String) (hx : x ∈ st.out) : x ∈ (processHeader ip sn st h).out := by
  unfold processHeader
  dsimp only
  repeat' split
  all_goals simp_all [List.mem_append]

theorem foldl_out_mono (ip sn : String) (hs : List (String × String)) :
    ∀ (st : CapSt) (x : String × String),
    x ∈ st.out → x ∈ (hs.foldl (processHeader ip sn) st).out := by
  induction hs with
  | nil => intro st x hx; simpa using hx
  | cons h t ih =>
    intro st x hx
    simp only [List.foldl_cons]
    exact ih (processHeader ip sn st h) x (processHeader_out_mono ip sn st h x hx)

theorem foldl_loc_mem (ip sn : String) (n L : String)
    (hip : ip ≠ "") (hn : pyLower n = "location")
    (h1 : pyStartswith L "/" = true) (h2 : pyStartswith L sn = false)
    (hs : List (String × String)) :
    ∀ st : CapSt, (n, L) ∈ hs →
    (n, sn ++ L) ∈ (hs.foldl (processHeader ip sn) st).out := by
  induction hs with
  | nil => intro st hmem; simp at hmem
  | cons h t ih =>
    intro st hmem
    simp only [List.foldl_cons]
    rcases List.mem_cons.mp hmem with heq | hmem2
    · apply foldl_out_mono
      rw [← heq]
      unfold processHeader
      simp [hn, hip, h1, h2, apply_ite CapSt.out]
    · exact ih (processHeader ip sn st h) hmem2

/-- C6: under a non-empty ingress path, a backend `Location` header whose
value starts with `/` and not with the script name is emitted with the
script name prepended. -/
theorem claim6_location_rewrite (ip : String) (app : App) (n L : String)
    (hip : ip ≠ "") (_hpre : scriptNameOf ip ≠ "")
    (hn : pyLower n = "location")
    (h1 : pyStartswith L "/" = true)
    (h2 : pyStartswith L (scriptNameOf ip) = false)
    (hmem : (n, L) ∈ app.headers) :
    (n, scriptNameOf ip ++ L) ∈ (runMiddleware ip app).headers := by
  have hout : (n, scriptNameOf ip ++ L)
      ∈ (captureHeaders ip (scriptNameOf ip) app.headers).out := by
    unfold captureHeaders
    exact foldl_loc_mem ip (scriptNameOf ip) n L hip hn h1 h2 app.headers _ hmem
  simp only [runMiddleware]
  split
  · exact List.mem_append_left _ hout
  · exact hout

/-- Witness for C6: prefix `/gw1`, backend `Location: /login`, emitted
`Location: /gw1/login`. -/
theorem claim6_witness :
    ("Location", "/gw1/login")
      ∈ (runMiddleware "/gw1"
          { status := "302 FOUND", headers := [("Location", "/login")],
            chunks := [] }).headers := by
  have h := claim6_location_rewrite "/gw1"
    { status := "302 FOUND", headers := [("Location", "/login")], chunks := [] }
    "Location" "/login" (by decide) (by decide) (by decide) (by decide) (by decide)
    (by simp)
  have he : scriptNameOf "/gw1" ++ "/login" = "/gw1/login" := by decide
  rw [he] at h
  exact h

/-! ## Claim C2: graceful degradation of the rewrite pipeline -/

/-- C2, counterexample: a gzip-encoded HTML body whose payload is not
UTF-8 — decompression succeeds, decoding raises, and the emitted body is
the decompressed payload `[255]`, not the bytes `[31, 139, 255]`
collected from the backend as the claim states. -/
theorem claim2_counterexample :
    (runMiddleware "/gw1"
        { status := "200 OK",
          headers := [("Content-Type", "text/html"), ("Content-Encoding", "gzip")],
          chunks := [[31, 139, 255]] }).chunks = [[255]]
    ∧ ({ status := "200 OK",
         headers := [("Content-Type", "text/html"), ("Content-Encoding", "gzip")],
         chunks := [[31, 139, 255]] } : App).chunks.flatten = [31, 139, 255]
    ∧ ([255] : List Nat) ≠ [31, 139, 255] := by
  decide

/-- C2, amended: on the rewrite path every error is caught and a response
is still emitted; the emitted body is the working buffer at the point of
the error — the collected backend bytes when decompression fails, but the
decompressed bytes when UTF-8 decoding fails after a successful
decompression. -/
theorem claim2_amended_degradation (ip : String) (app : App)
    (hip : ip ≠ "")
    (hflags : ((captureHeaders ip (scriptNameOf ip) app.headers).isHtml
        || (captureHeaders ip (scriptNameOf ip) app.headers).isJs) = true) :
    (decompStage (captureHeaders ip (scriptNameOf ip) app.headers).enc
        app.chunks.flatten = none →
      (runMiddleware ip app).chunks = [app.chunks.flatten])
    ∧ (∀ b1 : List Nat,
        decompStage (captureHeaders ip (scriptNameOf ip) app.headers).enc
          app.chunks.flatten = some b1 →
        utf8Decode b1 = none →
        (runMiddleware ip app).chunks = [b1]) := by
  constructor
  · intro hdec
    simp only [runMiddleware]
    rw [if_pos ⟨hflags, hip⟩]
    simp only [bodyPipeline, hdec]
  · intro b1 hdec hdecode
    simp only [runMiddleware]
    rw [if_pos ⟨hflags, hip⟩]
    simp only [bodyPipeline, hdec, hdecode]

/-- Witness for the amended C2: gzip garbage (no container magic) makes
decompression raise and the collected bytes are emitted unchanged. -/
theorem claim2_amended_witness :
    (runMiddleware "/gw1"
        { status := "200 OK",
          headers := [("Content-Type", "text/html"), ("Content-Encoding", "gzip")],
          chunks := [[0, 1, 2]] }).chunks = [[0, 1, 2]] := by
  have h := (claim2_amended_degradation "/gw1"
      { status := "200 OK",
        headers := [("Content-Type", "text/html"), ("Content-Encoding", "gzip")],
        chunks := [[0, 1, 2]] } (by decide) (by decide)).1 (by decide)
  simpa using h

/-! ## Claim C9: base-tag injection -/

theorem containsList_middle {α : Type} [DecidableEq α] (x pre suf : List α)
    (hx : x ≠ []) : containsList x (pre ++ x ++ suf) = true := by
  induction pre with
  | nil =>
    cases x with
    | nil => exact absurd rfl hx
    | cons a t =>
      have h := listStarts_append (a :: t) suf
      simp only [List.cons_append] at h
      simp [containsList, h]
  | cons c p ih =>
    simp only [List.cons_append, containsList]
    simp only [List.append_assoc] at ih ⊢
    simp [ih]

theorem replaceFirst_at (old nw suf : List Char) (hold : old ≠ []) :
    ∀ pre : List Char,
    (∀ j, j < pre.length → listStarts old ((pre ++ (old ++ suf)).drop j) = false) →
    replaceFirst old nw (pre ++ (old ++ suf)) = pre ++ (nw ++ suf) := by
  intro pre
  induction pre with
  | nil =>
    intro _
    cases old with
    | nil => exact absurd rfl hold
    | cons o os =>
      simp only [List.nil_append, List.cons_append, replaceFirst]
      rw [if_pos (by simpa using listStarts_append (o :: os) suf)]
      have hd : ((o :: os) ++ suf).drop (o :: os).length = suf :=
        drop_append_self (o :: os) suf
      simp only [List.cons_append] at hd
      simp [hd]
  | cons c p ih =>
    intro hocc
    have h0 : listStarts old (c :: (p ++ (old ++ suf))) = false := by
      simpa using hocc 0 (Nat.succ_pos _)
    have ih2 := ih (fun j hj => by simpa using hocc (j + 1) (Nat.succ_lt_succ hj))
    simp only [List.cons_append, replaceFirst]
    rw [if_neg (by simp [h0])]
    simp [ih2]

/-- C9, counterexample: an HTML body whose `<head>` tag carries
attributes and which already contains the base element — the fallback
branch has no already-present check, so the base element is injected a
second time instead of the claimed skip. -/
theorem claim9_counterexample :
    injectBaseS "/p" ("<head x>" ++ base_tagOf "/p")
      = "<head x>" ++ base_tagOf "/p" ++ base_tagOf "/p"
    ∧ pyContains ("<head x>" ++ base_tagOf "/p") (base_tagOf "/p") = true
    ∧ ("<head x>" ++ base_tagOf "/p" ++ base_tagOf "/p" : String)
        ≠ "<head x>" ++ base_tagOf "/p" := by
  decide

/-- C9, amended: when the base element is already present, injection is
skipped provided no `<head ` (with attributes) occurrence exists; and on
a body of the form `pre ++ "<head>" ++ suf` whose first `<head>`
occurrence is the displayed one and which does not yet contain the base
element, the base element is injected immediately after that opening tag
exactly once.  (With an attributed head tag the fallback branch injects
even if the element is already present, as the counterexample shows.) -/
theorem claim9_amended_injection :
    (∀ (sn text : String), pyContains text (base_tagOf sn) = true →
      pyContains text "<head " = false → injectBaseS sn text = text)
    ∧ (∀ (sn : String) (pre suf : List Char),
        containsList (base_tagOf sn).data (pre ++ "<head>".data ++ suf) = false →
        (∀ j, j < pre.length →
          listStarts "<head>".data ((pre ++ "<head>".data ++ suf).drop j) = false) →
        injectBase sn (pre ++ "<head>".data ++ suf)
          = pre ++ "<head>".data ++ (base_tagOf sn).data ++ suf) := by
  constructor
  · intro sn text hbt hattr
    unfold pyContains at hbt hattr
    unfold injectBaseS injectBase
    rw [if_neg (by simp [hbt]), if_neg (by simp [hattr])]
  · intro sn pre suf hbt hocc
    unfold injectBase
    dsimp only
    have hhead : containsList "<head>".data (pre ++ "<head>".data ++ suf) = true :=
      containsList_middle "<head>".data pre suf (by decide)
    have hcond : (containsList "<head>".data (pre ++ "<head>".data ++ suf)
        && !containsList (base_tagOf sn).data (pre ++ "<head>".data ++ suf)) = true := by
      rw [hhead, hbt]
      rfl
    rw [if_pos hcond]
    have hocc2 : ∀ j, j < pre.length →
        listStarts "<head>".data ((pre ++ ("<head>".data ++ suf)).drop j) = false := by
      intro j hj
      simpa [List.append_assoc] using hocc j hj
    have hrw := replaceFirst_at "<head>".data
      ("<head>".data ++ (base_tagOf sn).data) suf (by decide) pre hocc2
    rw [List.append_assoc pre "<head>".data suf, hrw]
    simp [List.append_assoc]

/-- Witness for the amended C9 at prefix `/p` on `<html><head></html>`:
both the skip branch and the exactly-once injection at a concrete
document. -/
theorem claim9_witness :
    injectBaseS "/p" ("<head>" ++ base_tagOf "/p") = "<head>" ++ base_tagOf "/p"
    ∧ injectBase "/p" ("<html>".data ++ "<head>".data ++ "</html>".data)
      = "<html>".data ++ "<head>".data ++ (base_tagOf "/p").data ++ "</html>".data := by
  constructor
  · exact claim9_amended_injection.1 "/p" ("<head>" ++ base_tagOf "/p")
      (by decide) (by decide)
  · exact claim9_amended_injection.2 "/p" "<html>".data "</html>".data
      (by decide) (by decide)

end HaWsgi
